import Mathlib

/-!
# Verification of the `simple-stream` framing layer

Shallow embedding of `src/src/bstream/mod.rs` (the `Bstream` framed stream)
and of the `ReadBuffer` frame buffer it drives.  Bytes are `Nat`s; the
transport is modelled as the list of bytes the peer will deliver, together
with a fragmentation schedule saying how many bytes each underlying
`TcpStream::read` call hands back (an exhausted input models EOF: the
transport read returns zero bytes, exactly as `TcpStream::read` returns
`Ok(0)` on a closed connection).
-/

namespace SimpleStream

/-- Modelled from the spec: the `readbuffer` module (`super::readbuffer::ReadBuffer`)
is used by `src/src/bstream/mod.rs` but its source file is not present under
`src/`.  Per spec §4.1 the Frame Buffer holds (a) an accumulator of raw bytes,
(b) a target capacity for the current phase, and (c) a queue of completed
frames not yet retrieved. -/
structure ReadBuffer where
  buffer : List Nat
  capacity : Nat
  queue : List (List Nat)
  deriving DecidableEq, Repr

/-- Modelled from the spec: a fresh Frame Buffer — empty accumulator, target
capacity 2 (start of a length prefix), empty completed-frame queue. -/
def ReadBuffer.new : ReadBuffer :=
  { buffer := [], capacity := 2, queue := [] }

/-- Modelled from the spec: `remaining()` = target capacity − current
accumulator length (never negative; `Nat` subtraction truncates at 0). -/
def ReadBuffer.remaining (b : ReadBuffer) : Nat :=
  b.capacity - b.buffer.length

/-- Modelled from the spec: `push(byte)` appends one byte to the accumulator. -/
def ReadBuffer.push (b : ReadBuffer) (x : Nat) : ReadBuffer :=
  { b with buffer := b.buffer ++ [x] }

/-- Modelled from the spec: `current contents()` — read-only view of the
accumulator (`current_buffer` at the call sites in `bstream/mod.rs`). -/
def ReadBuffer.current_buffer (b : ReadBuffer) : List Nat :=
  b.buffer

/-- Modelled from the spec: `decode length()` interprets the 2 completed
accumulator bytes as an unsigned big-endian 16-bit integer; defined only when
the accumulator holds exactly 2 bytes (0 otherwise).  Covers the
`calc_payload_len` / `payload_len` pair at the call sites. -/
def ReadBuffer.payload_len (b : ReadBuffer) : Nat :=
  match b.buffer with
  | [hi, lo] => hi * 256 + lo
  | _ => 0

/-- Modelled from the spec: `set target capacity(n)` resizes the target for
the next phase and clears the accumulator. -/
def ReadBuffer.set_capacity (b : ReadBuffer) (n : Nat) : ReadBuffer :=
  { b with buffer := [], capacity := n }

/-- Modelled from the spec: `complete current phase()` (`reset` at the call
site) moves the accumulator's contents into the completed-frame queue as one
frame, clears the accumulator, and resets target capacity to 2. -/
def ReadBuffer.reset (b : ReadBuffer) : ReadBuffer :=
  { buffer := [], capacity := 2, queue := b.queue ++ [b.buffer] }

/-- Modelled from the spec: `drain completed frames()` removes and returns all
queued completed frames in arrival order; the queue becomes empty. -/
def ReadBuffer.drain_queue (b : ReadBuffer) : List (List Nat) × ReadBuffer :=
  (b.queue, { b with queue := [] })

/-- Frame-buffer invariant from spec §3: `len(accumulator) ≤ target capacity`. -/
def ReadBuffer.wf (b : ReadBuffer) : Prop :=
  b.buffer.length ≤ b.capacity

instance (b : ReadBuffer) : Decidable b.wf := by
  unfold ReadBuffer.wf; infer_instance

/-- The Rust enum `ReadState` from `bstream/mod.rs`: `PayloadLen` (reading the length
prefix, spec name `AwaitingLength`) or `Payload` (reading the payload, spec
name `AwaitingPayload`). -/
inductive ReadState where
  | PayloadLen
  | Payload
  deriving DecidableEq, Repr

/-- The framing state of a `Bstream` from `bstream/mod.rs`: a `ReadState` and
a `ReadBuffer`.  The `TcpStream` handle is modelled externally (input byte
list plus fragmentation schedule for reads; produced wire bytes for writes). -/
structure Bstream where
  state : ReadState
  buffer : ReadBuffer
  deriving DecidableEq, Repr

/-- Constructor `Bstream::new`: state `PayloadLen`, fresh buffer. -/
def Bstream.new : Bstream :=
  { state := ReadState.PayloadLen, buffer := ReadBuffer.new }

/-- Duplication, `impl Clone for Bstream` from `bstream/mod.rs`: the clone carries
`self.state.clone()` and `self.buffer.clone()` over a re-duplicated handle to
the same connection.  `ReadState` derives `Clone` (field copy); the
`ReadBuffer` clone is modelled as a field copy (derived-`Clone` semantics —
its source file is absent and the spec gives the Frame Buffer no clone
operation of its own). -/
def Bstream.clone (s : Bstream) : Bstream :=
  { state := s.state, buffer := s.buffer }

/-- One underlying transport read (`self.stream.read(&mut buffer[..])` with a
buffer of length `count`): delivers `min(schedule head, count, bytes left)`
bytes from the front of the pending input.  An empty schedule entry means the
transport delivers as much as was requested; empty input models EOF
(`Ok(0)`).  Returns (bytes delivered, input left, schedule left). -/
def transportRead (count : Nat) (input sched : List Nat) :
    List Nat × List Nat × List Nat :=
  let cap := match sched with
    | [] => count
    | c :: _ => c
  let sched' := match sched with
    | [] => []
    | _ :: rest => rest
  let numRead := min (min cap count) input.length
  (input.take numRead, input.drop numRead, sched')

/-- The `loop` of `Bstream::read` from `bstream/mod.rs`, fuel-bounded.  Each
iteration: `count := buffer.remaining()`, transport read of at most `count`
bytes, push every byte received; when `remaining() == 0`, in state
`PayloadLen` decode the length, set the capacity and switch to `Payload`,
in state `Payload` call `reset` and exit the loop.  `none` means the fuel ran
out before the loop exited. -/
def readLoop : Nat → ReadState → ReadBuffer → List Nat → List Nat →
    Option (ReadState × ReadBuffer × List Nat × List Nat)
  | 0, _, _, _, _ => none
  | fuel + 1, st, buf, input, sched =>
    let count := buf.remaining
    let r := transportRead count input sched
    let buf' := r.1.foldl ReadBuffer.push buf
    if buf'.remaining = 0 then
      match st with
      | ReadState.PayloadLen =>
        let p := buf'.payload_len
        readLoop fuel ReadState.Payload (buf'.set_capacity p) r.2.1 r.2.2
      | ReadState.Payload =>
        some (ReadState.PayloadLen, buf'.reset, r.2.1, r.2.2)
    else
      readLoop fuel st buf' r.2.1 r.2.2

/-- Result of `Bstream::read`: a complete frame, or the `panic!` branch taken
when the drained queue length differs from 1.  (Transport reads themselves
never fail in the model; EOF is `Ok(0)`.) -/
inductive ReadResult where
  | ok (frame : List Nat)
  | panicked
  deriving DecidableEq, Repr

/-- Function `Bstream::read` from `bstream/mod.rs`: run the loop, then
`drain_queue()`; if the drained count is not 1 the code hits
the panic branch,
otherwise `pop()` the single frame and return it.  Returns the read result,
the post-call stream state and the unconsumed input, or `none` if the loop
fuel ran out. -/
def Bstream.read (s : Bstream) (input sched : List Nat) (fuel : Nat) :
    Option (ReadResult × Bstream × List Nat) :=
  match readLoop fuel s.state s.buffer input sched with
  | none => none
  | some (st, buf, input', _) =>
    let d := buf.drain_queue
    match d.1 with
    | [f] => some (ReadResult.ok f, { state := st, buffer := d.2 }, input')
    | _ => some (ReadResult.panicked, { state := st, buffer := d.2 }, input')

/-- Result of `Bstream::write` (`WriteResult = Result<(), Error>`); the model
has no transport write failures, so only the success constructor is ever
produced — dropped payload lengths come out in the wire bytes, not here. -/
inductive WriteResult where
  | ok
  deriving DecidableEq, Repr

/-- Function `Bstream::write` from `bstream/mod.rs`: `plen = buffer.len() as u16`
(a silently truncating cast, hence `% 65536`), then the contiguous wire
buffer `[(plen >> 8) as u8, plen as u8] ++ payload` handed to
`write_all`.  Returns the write result and the bytes put on the wire. -/
def Bstream.write (payload : List Nat) : WriteResult × List Nat :=
  let plen := payload.length % 65536
  (WriteResult.ok, plen / 256 :: plen % 256 :: payload)

/-- Outcome of `Bstream::shutdown` from `bstream/mod.rs`: the function
returns `()` on success and `panic!`s (aborts the process) when the
underlying `TcpStream::shutdown(Shutdown::Both)` reports an error. -/
inductive ShutdownOutcome where
  | done
  | panicked
  deriving DecidableEq, Repr

/-- Function `Bstream::shutdown` from `bstream/mod.rs`, parameterised by the result of
the underlying `self.stream.shutdown(Shutdown::Both)` call: `Ok` falls
through (return type `()`), `Err` hits
the panic branch. -/
def Bstream.shutdown (result : Except Unit Unit) : ShutdownOutcome :=
  match result with
  | Except.ok _ => ShutdownOutcome.done
  | Except.error _ => ShutdownOutcome.panicked

/-! ## Helper lemmas -/

theorem foldl_push_eq (bytes : List Nat) (b : ReadBuffer) :
    bytes.foldl ReadBuffer.push b =
      { buffer := b.buffer ++ bytes, capacity := b.capacity, queue := b.queue } := by
  induction bytes generalizing b with
  | nil => simp
  | cons x xs ih => simp [ReadBuffer.push, ih]

theorem transportRead_full (count : Nat) (input : List Nat) (h : count ≤ input.length) :
    transportRead count input [] = (input.take count, input.drop count, []) := by
  simp [transportRead, Nat.min_self, Nat.min_eq_left h]

theorem readLoop_prefix_step (fuel : Nat) (q : List (List Nat)) (hi lo : Nat)
    (t : List Nat) :
    readLoop (fuel + 1) ReadState.PayloadLen ⟨[], 2, q⟩ (hi :: lo :: t) [] =
      readLoop fuel ReadState.Payload ⟨[], hi * 256 + lo, q⟩ t [] := by
  have h2 : 2 ≤ (hi :: lo :: t).length := by simp
  simp only [readLoop]
  norm_num [ReadBuffer.remaining, transportRead_full _ _ h2, ReadBuffer.push,
    ReadBuffer.payload_len, ReadBuffer.set_capacity]

theorem readLoop_payload_step (fuel : Nat) (q : List (List Nat))
    (payload rest : List Nat) :
    readLoop (fuel + 1) ReadState.Payload ⟨[], payload.length, q⟩
        (payload ++ rest) [] =
      some (ReadState.PayloadLen, ⟨[], 2, q ++ [payload]⟩, rest, []) := by
  have h : payload.length ≤ (payload ++ rest).length := by simp
  simp only [readLoop]
  norm_num [ReadBuffer.remaining, transportRead_full _ _ h, foldl_push_eq,
    ReadBuffer.reset, List.take_left, List.drop_left, ReadBuffer.push]

theorem readLoop_some_shape (fuel : Nat) (st st' : ReadState) (buf buf' : ReadBuffer)
    (input sched input' sched' : List Nat)
    (h : readLoop fuel st buf input sched = some (st', buf', input', sched')) :
    st' = ReadState.PayloadLen ∧ buf'.buffer = [] ∧ buf'.capacity = 2 ∧
      ∃ f, buf'.queue = buf.queue ++ [f] := by
  induction fuel generalizing st buf input sched with
  | zero => simp [readLoop] at h
  | succ n ih =>
    simp only [readLoop] at h
    set c := (transportRead buf.remaining input sched).1.foldl ReadBuffer.push buf with hc
    have hq : c.queue = buf.queue := by rw [hc, foldl_push_eq]
    by_cases h0 : c.remaining = 0
    · rw [if_pos h0] at h
      cases st with
      | PayloadLen =>
        rcases ih _ _ _ _ h with ⟨h1, h2, h3, f, h4⟩
        exact ⟨h1, h2, h3, f, by rwa [ReadBuffer.set_capacity, hq] at h4⟩
      | Payload =>
        rcases Option.some.inj h with h5
        rcases Prod.mk.injEq .. ▸ h5 with ⟨h6, h7⟩
        rcases Prod.mk.injEq .. ▸ h7 with ⟨h8, h9⟩
        refine ⟨h6.symm, ?_, ?_, c.buffer, ?_⟩ <;>
          simp [← h8, ReadBuffer.reset, hq]
    · rw [if_neg h0] at h
      rcases ih _ _ _ _ h with ⟨h1, h2, h3, f, h4⟩
      exact ⟨h1, h2, h3, f, by rwa [hq] at h4⟩

theorem readLoop_eof_none (fuel : Nat) (st : ReadState) (buf : ReadBuffer)
    (sched : List Nat) (h : buf.remaining ≠ 0) :
    readLoop fuel st buf [] sched = none := by
  induction fuel generalizing sched with
  | zero => rfl
  | succ n ih =>
    simp only [readLoop]
    have ht : (transportRead buf.remaining [] sched).1 = [] := by
      simp [transportRead]
    have hb : (transportRead buf.remaining [] sched).1.foldl ReadBuffer.push buf
        = buf := by rw [ht]; rfl
    rw [hb, if_neg h]
    have hi : (transportRead buf.remaining [] sched).2.1 = [] := by
      simp [transportRead]
    rw [hi]
    exact ih _

/-! ## Claim theorems -/

/-- C1: for every payload byte sequence of length 0 to 65535, `write(payload)`
followed by `read()` on the peer end of the connection returns exactly that
payload — and consumes exactly the frame's bytes, leaving any following input
(`rest`) for the next frame. -/
theorem write_read_roundtrip (payload rest : List Nat)
    (h : payload.length ≤ 65535) :
    Bstream.read Bstream.new ((Bstream.write payload).2 ++ rest) [] 3 =
      some (ReadResult.ok payload, Bstream.new, rest) := by
  have hm : payload.length % 65536 = payload.length := Nat.mod_eq_of_lt (by omega)
  have hw : (Bstream.write payload).2 ++ rest =
      payload.length / 256 :: payload.length % 256 :: (payload ++ rest) := by
    simp [Bstream.write, hm]
  unfold Bstream.read
  rw [hw]
  have h1 : readLoop 3 Bstream.new.state Bstream.new.buffer
      (payload.length / 256 :: payload.length % 256 :: (payload ++ rest)) [] =
      some (ReadState.PayloadLen, ⟨[], 2, [payload]⟩, rest, []) := by
    show readLoop (2 + 1) ReadState.PayloadLen ⟨[], 2, []⟩ _ [] = _
    rw [readLoop_prefix_step, Nat.div_add_mod']
    show readLoop (1 + 1) _ ⟨[], payload.length, []⟩ (payload ++ rest) [] = _
    rw [readLoop_payload_step]
    simp
  rw [h1]
  rfl

/-- Witness for C1 at the payload for hello, with two bytes of a following
frame left unread on the wire. -/
theorem write_read_roundtrip_witness :
    [104, 101, 108, 108, 111].length ≤ 65535 ∧
      Bstream.read Bstream.new
          ((Bstream.write [104, 101, 108, 108, 111]).2 ++ [1, 2]) [] 3 =
        some (ReadResult.ok [104, 101, 108, 108, 111], Bstream.new, [1, 2]) :=
  ⟨by decide, write_read_roundtrip [104, 101, 108, 108, 111] [1, 2] (by decide)⟩

/-- C2, code bug evidence: for a payload of 65536 bytes, `Bstream::write` does
NOT return a length error; `buffer.len() as u16` silently truncates 65536 to
0, so the write succeeds and puts a frame with prefix `[0x00, 0x00]` followed
by all 65536 payload bytes on the wire. -/
theorem write_truncates_oversized_length :
    Bstream.write (List.replicate 65536 1) =
      (WriteResult.ok, 0 :: 0 :: List.replicate 65536 1) := by
  norm_num [Bstream.write]

/-- C3, counterexample: duplicating a stream that is mid-frame (read state
`Payload`, one payload byte already accumulated) does NOT yield fresh framing
state: `impl Clone for Bstream` copies `self.state` (and, in the model, the
buffer) instead of resetting to `PayloadLen` with an empty accumulator. -/
theorem clone_keeps_mid_frame_state_cex :
    ¬ ((Bstream.clone ⟨ReadState.Payload, ReadBuffer.push ReadBuffer.new 7⟩).state =
          ReadState.PayloadLen ∧
        (Bstream.clone
            ⟨ReadState.Payload, ReadBuffer.push ReadBuffer.new 7⟩).buffer.buffer = []) := by
  decide

/-- C3, amended: duplicating a `Bstream` yields an instance over a duplicated
handle to the same connection whose framing state is a copy of the original's
state at the moment of duplication — the read state (and, with the frame
buffer's clone modelled as a field copy, the buffer) equals the original's,
not a fresh `PayloadLen`/empty-buffer configuration. -/
theorem clone_copies_framing_state (s : Bstream) :
    (Bstream.clone s).state = s.state ∧ (Bstream.clone s).buffer = s.buffer :=
  ⟨rfl, rfl⟩

/-- C4, code bug evidence: when the transport delivers no further bytes (EOF,
`read` returning `Ok(0)`) while the current frame is incomplete
(`remaining() > 0`), `Bstream::read` never returns: for EVERY iteration bound
`fuel` the loop is still running (result `none`), i.e. the zero-byte read is
silently retried forever instead of being reported as connection closed. -/
theorem read_loops_forever_on_eof (s : Bstream) (sched : List Nat) (fuel : Nat)
    (h : s.buffer.remaining ≠ 0) :
    Bstream.read s [] sched fuel = none := by
  unfold Bstream.read
  rw [readLoop_eof_none _ _ _ _ h]

/-- Witness for C4: the peer closed after sending 1 byte of the 2-byte length
prefix; even 5 loop iterations make no progress. -/
theorem read_loops_forever_on_eof_witness :
    (ReadBuffer.push ReadBuffer.new 0).remaining ≠ 0 ∧
      Bstream.read ⟨ReadState.PayloadLen, ReadBuffer.push ReadBuffer.new 0⟩ [] [] 5 =
        none :=
  ⟨by decide,
    read_loops_forever_on_eof ⟨ReadState.PayloadLen, ReadBuffer.push ReadBuffer.new 0⟩
      [] 5 (by decide)⟩

/-- C5: for every payload of length 0 to 65535, `Bstream::write` emits exactly
one contiguous byte sequence: the 2-byte unsigned big-endian encoding of the
length (high byte `L / 256`, low byte `L % 256`) followed by the payload. -/
theorem write_wire_format (payload : List Nat) (h : payload.length ≤ 65535) :
    Bstream.write payload =
      (WriteResult.ok, payload.length / 256 :: payload.length % 256 :: payload) := by
  simp [Bstream.write, Nat.mod_eq_of_lt (show payload.length < 65536 by omega)]

/-- Witness for C5: writing hello puts exactly
`[0x00, 0x05, 104, 101, 108, 108, 111]` on the wire. -/
theorem write_wire_format_witness :
    [104, 101, 108, 108, 111].length ≤ 65535 ∧
      Bstream.write [104, 101, 108, 108, 111] =
        (WriteResult.ok, [0, 5, 104, 101, 108, 108, 111]) :=
  ⟨by decide, (write_wire_format [104, 101, 108, 108, 111] (by decide)).trans (by decide)⟩

/-- C6: a zero-length payload makes a valid frame: `write([])` puts exactly
`[0x00, 0x00]` on the wire, and `read()` over exactly those two bytes
completes without needing (or blocking for) any payload byte and returns the
empty payload, leaving the stream back at its fresh state. -/
theorem empty_payload_frame :
    Bstream.write [] = (WriteResult.ok, [0, 0]) ∧
      Bstream.read Bstream.new [0, 0] [] 3 =
        some (ReadResult.ok [], Bstream.new, []) :=
  ⟨rfl, by decide⟩

/-- C7: on a read-loop iteration the transport read delivers at most
`remaining()` bytes (the chunk length is bounded by `buf.remaining`, because
the buffer handed to the transport has exactly that length); appending such a
chunk preserves the buffer invariant `len(accumulator) ≤ target capacity`;
and any buffer the loop terminates with satisfies the invariant as well. -/
theorem read_chunk_bounded_and_invariant (buf : ReadBuffer) (input sched : List Nat)
    (fuel : Nat) (st st' : ReadState) (buf' : ReadBuffer) (input' sched' : List Nat)
    (hwf : buf.wf) :
    (transportRead buf.remaining input sched).1.length ≤ buf.remaining ∧
      ((transportRead buf.remaining input sched).1.foldl ReadBuffer.push buf).wf ∧
      (readLoop fuel st buf input sched = some (st', buf', input', sched') →
        ReadBuffer.wf buf') := by
  have hlen : (transportRead buf.remaining input sched).1.length ≤ buf.remaining := by
    cases sched <;> simp only [transportRead, List.length_take] <;> omega
  refine ⟨hlen, ?_, ?_⟩
  · rw [foldl_push_eq]
    unfold ReadBuffer.wf at hwf ⊢
    simp only [List.length_append]
    have hr : buf.remaining = buf.capacity - buf.buffer.length := rfl
    omega
  · intro h
    rcases readLoop_some_shape _ _ _ _ _ _ _ _ _ h with ⟨h1, h2, h3, h4⟩
    unfold ReadBuffer.wf
    rw [h2, h3]
    simp

/-- Witness for C7: a fresh buffer fed the 3-byte wire frame `[0, 1, 9]`,
whose loop terminates in two iterations with the frame queued. -/
theorem read_chunk_bounded_and_invariant_witness :
    ReadBuffer.new.wf ∧
      ((transportRead ReadBuffer.new.remaining [0, 1, 9] []).1.length ≤
          ReadBuffer.new.remaining ∧
        ((transportRead ReadBuffer.new.remaining [0, 1, 9] []).1.foldl
            ReadBuffer.push ReadBuffer.new).wf ∧
        (readLoop 3 ReadState.PayloadLen ReadBuffer.new [0, 1, 9] [] =
            some (ReadState.PayloadLen, ⟨[], 2, [[9]]⟩, [], []) →
          ReadBuffer.wf ⟨[], 2, [[9]]⟩)) :=
  ⟨by decide,
    read_chunk_bounded_and_invariant ReadBuffer.new [0, 1, 9] [] 3
      ReadState.PayloadLen ReadState.PayloadLen ⟨[], 2, [[9]]⟩ [] [] (by decide)⟩

/-- C8: whenever `read()` starts with an empty completed-frame queue (as it
always does on a stream whose queue has been drained, e.g. a fresh one) and
its loop exits, draining yields exactly one frame, so the panic branch
guarding a drain count other than 1 is not taken and the result is an
ordinary frame. -/
theorem read_drains_exactly_one (s : Bstream) (input sched : List Nat) (fuel : Nat)
    (r : ReadResult) (s' : Bstream) (input' : List Nat)
    (hq : s.buffer.queue = [])
    (h : Bstream.read s input sched fuel = some (r, s', input')) :
    ∃ f, r = ReadResult.ok f := by
  unfold Bstream.read at h
  cases hl : readLoop fuel s.state s.buffer input sched with
  | none => rw [hl] at h; exact absurd h (by simp)
  | some v =>
    obtain ⟨st, buf, input2, sched2⟩ := v
    rw [hl] at h
    rcases readLoop_some_shape _ _ _ _ _ _ _ _ _ hl with ⟨h1, h2, h3, f, hqf⟩
    rw [hq] at hqf
    simp only [ReadBuffer.drain_queue, hqf, List.nil_append] at h
    rcases Prod.mk.injEq .. ▸ Option.some.inj h with ⟨h5, h6⟩
    exact ⟨f, h5.symm⟩

/-- Witness for C8: reading one 3-byte frame from a fresh stream yields an
ordinary `ok` result. -/
theorem read_drains_exactly_one_witness :
    (Bstream.new.buffer.queue = [] ∧
      Bstream.read Bstream.new [0, 3, 7, 8, 9] [] 3 =
        some (ReadResult.ok [7, 8, 9], Bstream.new, [])) ∧
      ∃ f, ReadResult.ok [7, 8, 9] = ReadResult.ok f :=
  ⟨⟨by decide, by decide⟩,
    read_drains_exactly_one Bstream.new [0, 3, 7, 8, 9] [] 3
      (ReadResult.ok [7, 8, 9]) Bstream.new [] (by decide) (by decide)⟩

/-- C9, code bug evidence: when the underlying `TcpStream::shutdown` call
fails, `Bstream::shutdown` hits its panic branch — the process aborts — and
no error-typed result reaches the caller (the function returns `()`). -/
theorem shutdown_panics_on_error :
    Bstream.shutdown (Except.error ()) = ShutdownOutcome.panicked := rfl

/-- C10: after every successful `read()`, the stream is back at the
start-of-frame configuration: state `PayloadLen` (AwaitingLength), empty
accumulator, target capacity 2, and an empty completed-frame queue — a
subsequent `read()` parses the next frame from a clean state. -/
theorem read_resets_framing_state (s : Bstream) (input sched : List Nat)
    (fuel : Nat) (f : List Nat) (s' : Bstream) (input' : List Nat)
    (h : Bstream.read s input sched fuel = some (ReadResult.ok f, s', input')) :
    s'.state = ReadState.PayloadLen ∧ s'.buffer.buffer = [] ∧
      s'.buffer.capacity = 2 ∧ s'.buffer.queue = [] := by
  unfold Bstream.read at h
  cases hl : readLoop fuel s.state s.buffer input sched with
  | none => rw [hl] at h; exact absurd h (by simp)
  | some v =>
    obtain ⟨st, buf, input2, sched2⟩ := v
    rw [hl] at h
    rcases readLoop_some_shape _ _ _ _ _ _ _ _ _ hl with ⟨h1, h2, h3, h4⟩
    simp only [ReadBuffer.drain_queue] at h
    split at h
    · rcases Prod.mk.injEq .. ▸ Option.some.inj h with ⟨h5, h6⟩
      rcases Prod.mk.injEq .. ▸ h6 with ⟨h7, h8⟩
      subst h1
      rw [← h7]
      exact ⟨rfl, h2, h3, rfl⟩
    · rcases Prod.mk.injEq .. ▸ Option.some.inj h with ⟨h5, h6⟩
      exact absurd h5 (by simp)

/-- Witness for C10: after reading a 1-byte frame from a fresh stream the
post-read stream equals the fresh configuration. -/
theorem read_resets_framing_state_witness :
    Bstream.read Bstream.new [0, 1, 42] [] 3 =
        some (ReadResult.ok [42], Bstream.new, []) ∧
      (Bstream.new.state = ReadState.PayloadLen ∧ Bstream.new.buffer.buffer = [] ∧
        Bstream.new.buffer.capacity = 2 ∧ Bstream.new.buffer.queue = []) :=
  ⟨by decide,
    read_resets_framing_state Bstream.new [0, 1, 42] [] 3 [42] Bstream.new []
      (by decide)⟩

end SimpleStream
